import Mathlib

/-
Verification of the per-task socket descriptor table of net-sockets.c
(NuttX network stack): socket list lifecycle (net_alloclist,
net_addreflist, net_releaselist) and the descriptor allocator
(sockfd_allocate, sockfd_release, sockfd_socket).

The C code is shallowly embedded: the slot array is a List of socket
records whose length plays the role of CONFIG_NSOCKET_DESCRIPTORS; the
descriptor base __SOCKFD_OFFSET is an Int parameter; the per-task list
obtained from sched_getsockets is an Option socketlist threaded through
every operation; the list mutex sl_sem is an Int counter decremented by
_net_semtake and incremented by _net_semgive.
-/

/-- One entry of the socket list (struct socket). s_crefs is the
reference count; s_conn stands for the remaining, opaque
per-connection state of the structure (everything memset clears). -/
structure socket where
  s_crefs : Nat
  s_conn : Nat
deriving DecidableEq, Repr

/-- The all-zero socket structure, the result of memset(psock, 0, ...). -/
def zeroSocket : socket := { s_crefs := 0, s_conn := 0 }

/-- The socket list (struct socketlist): list-level reference count
sl_crefs, the mutex counter sl_sem, and the fixed-capacity slot array
sl_sockets (its length is CONFIG_NSOCKET_DESCRIPTORS). -/
structure socketlist where
  sl_crefs : Int
  sl_sem : Int
  sl_sockets : List socket
deriving DecidableEq, Repr

/-- The ERROR return value of sockfd_allocate. -/
def ERROR : Int := -1

/-- The errno value set when sem_wait is interrupted by a signal. -/
def EINTR : Int := 4

/-- Takes the list mutex (_net_semtake): sem_wait decrements sl_sem. -/
def net_semtake (l : socketlist) : socketlist :=
  { l with sl_sem := l.sl_sem - 1 }

/-- Gives the list mutex back (_net_semgive): sem_post increments sl_sem. -/
def net_semgive (l : socketlist) : socketlist :=
  { l with sl_sem := l.sl_sem + 1 }

/-- Outcome of one sem_wait call: success, or failure with an errno. -/
inductive SemResult where
  | ok
  | err (errno : Int)
deriving DecidableEq, Repr

/-- The retry loop of _net_semtake, run over the trace of successive
sem_wait outcomes: a nonzero return whose errno is EINTR is retried
(the ASSERT passes); any other errno trips the ASSERT (modelled as
none); acquisition returns the number of retried waits. -/
def net_semtake_loop : List SemResult → Option Nat
  | [] => none
  | SemResult.ok :: _ => some 0
  | SemResult.err e :: rest =>
      if e = EINTR then (net_semtake_loop rest).map (· + 1) else none

/-- Allocates a socket list for a new task (net_alloclist): kzmalloc a
zeroed block of cap slots, set sl_crefs to 1, sem_init the mutex to 1.
allocOk models whether kzmalloc succeeds. -/
def net_alloclist (cap : Nat) (allocOk : Bool) : Option socketlist :=
  if allocOk then
    some { sl_crefs := 1, sl_sem := 1,
           sl_sockets := List.replicate cap zeroSocket }
  else
    none

/-- Increments the reference count on a socket list (net_addreflist),
inside an irqsave critical section; a NULL list is left alone. The C
function always returns OK. -/
def net_addreflist : Option socketlist → Option socketlist
  | none => none
  | some l => some { l with sl_crefs := l.sl_crefs + 1 }

/-- Releases one reference to the socket list (net_releaselist):
decrement sl_crefs under irqsave; if the result is zero or below,
sem_destroy the mutex and sched_free the block. The Bool records
whether the storage was freed on this call. The C function always
returns OK. -/
def net_releaselist : Option socketlist → Option socketlist × Bool
  | none => (none, false)
  | some l =>
      let crefs := l.sl_crefs - 1
      if crefs ≤ 0 then (none, true)
      else (some { l with sl_crefs := crefs }, false)

/-- The scan loop of sockfd_allocate: index of the first slot whose
s_crefs is zero, scanning from index 0 upward. -/
def findFree : List socket → Option Nat
  | [] => none
  | s :: rest =>
      if s.s_crefs = 0 then some 0
      else (findFree rest).map (· + 1)

/-- Allocates a socket descriptor (sockfd_allocate): fetch the task
socket list; if none, return ERROR. Take the mutex, scan for the first
slot with zero s_crefs; if found, memset the slot, set s_crefs to 1,
give the mutex and return index + __SOCKFD_OFFSET (the off parameter);
if the scan exhausts the table, give the mutex and return ERROR. -/
def sockfd_allocate (off : Int) : Option socketlist → Int × Option socketlist
  | none => (ERROR, none)
  | some l =>
      let l1 := net_semtake l
      match findFree l1.sl_sockets with
      | some i =>
          let l2 := { l1 with
            sl_sockets := l1.sl_sockets.set i { zeroSocket with s_crefs := 1 } }
          ((i : Int) + off, some (net_semgive l2))
      | none => (ERROR, some (net_semgive l1))

/-- Translates a descriptor to its slot (sockfd_socket): subtract
__SOCKFD_OFFSET; if the index is outside [0, CONFIG_NSOCKET_DESCRIPTORS)
or the task has no socket list, return NULL (none); otherwise return the
address of slot ndx (modelled as the index into sl_sockets). No lock is
taken and no state is modified: the function is pure. -/
def sockfd_socket (cap : Nat) (off : Int) (sockfd : Int)
    (st : Option socketlist) : Option Nat :=
  let ndx := sockfd - off
  if 0 ≤ ndx ∧ ndx < (cap : Int) then
    match st with
    | some _ => some ndx.toNat
    | none => none
  else none

/-- Releases a socket descriptor (sockfd_release): resolve the
descriptor via sockfd_socket; if NULL, do nothing. Re-fetch the task
list; if none, do nothing. Take the mutex; if the slot reference count
is above 1 decrement it, otherwise memset the whole slot to zero; give
the mutex. -/
def sockfd_release (cap : Nat) (off : Int) (sockfd : Int)
    (st : Option socketlist) : Option socketlist :=
  match sockfd_socket cap off sockfd st with
  | none => st
  | some ndx =>
      match st with
      | none => st
      | some l =>
          let l1 := net_semtake l
          let psock := l1.sl_sockets.getD ndx zeroSocket
          let l2 :=
            if psock.s_crefs > 1 then
              { l1 with sl_sockets :=
                  l1.sl_sockets.set ndx { psock with s_crefs := psock.s_crefs - 1 } }
            else
              { l1 with sl_sockets := l1.sl_sockets.set ndx zeroSocket }
          some (net_semgive l2)

/-- One descriptor-allocator operation, for reasoning about sequences. -/
inductive Op where
  | alloc
  | rel (fd : Int)
deriving DecidableEq, Repr

/-- Applies one operation to the task state. -/
def runOp (cap : Nat) (off : Int) (st : Option socketlist) : Op → Option socketlist
  | Op.alloc => (sockfd_allocate off st).2
  | Op.rel fd => sockfd_release cap off fd st

/-- Applies a sequence of operations to the task state. -/
def run (cap : Nat) (off : Int) : List Op → Option socketlist → Option socketlist
  | [], st => st
  | op :: ops, st => run cap off ops (runOp cap off st op)

/-- Number of live (nonzero reference count) slots of a list. -/
def liveCount (l : socketlist) : Nat :=
  l.sl_sockets.countP (fun s => s.s_crefs != 0)

/-- The slot invariant of the spec: a slot with zero reference count
holds no live connection state, i.e. is fully zeroed. -/
def slotInv (l : socketlist) : Prop :=
  ∀ s ∈ l.sl_sockets, s.s_crefs = 0 → s = zeroSocket

instance (l : socketlist) : Decidable (slotInv l) := by
  unfold slotInv; infer_instance

/-- Reading back the slot just written by List.set. -/
theorem getD_set_self (l : List socket) (i : Nat) (a d : socket)
    (h : i < l.length) : (l.set i a).getD i d = a := by
  simp [List.getD, List.getElem?_set_self, h]

/-- Reading a slot other than the one written by List.set. -/
theorem getD_set_ne (l : List socket) (i j : Nat) (a d : socket)
    (h : j ≠ i) : (l.set i a).getD j d = l.getD j d := by
  simp [List.getD, List.getElem?_set_ne (by omega : i ≠ j)]

/-- Writing back the value already stored leaves the list unchanged. -/
theorem set_getD_self (l : List socket) (i : Nat) (a d : socket)
    (h : i < l.length) (hv : l.getD i d = a) : l.set i a = l := by
  apply List.ext_getElem?
  intro n
  rcases eq_or_ne n i with rfl | hne
  · simp [List.getElem?_set_self, h]
    simp [List.getD, List.getElem?_eq_getElem h] at hv
    simp [List.getElem?_eq_getElem h, hv]
  · simp [List.getElem?_set_ne (by omega : i ≠ n)]

/-- Giving the mutex back right after taking it restores the list. -/
theorem net_semgive_net_semtake (l : socketlist) :
    net_semgive (net_semtake l) = l := by
  cases l with
  | mk a b c => simp [net_semgive, net_semtake]

/-- A successful scan returns an in-range index of a free slot, and every
index below it holds a live slot: the scan is lowest-free-first. -/
theorem findFree_some (l : List socket) (i : Nat) (h : findFree l = some i) :
    i < l.length ∧ (l.getD i zeroSocket).s_crefs = 0 ∧
      ∀ j, j < i → (l.getD j zeroSocket).s_crefs ≠ 0 := by
  induction l generalizing i with
  | nil => simp [findFree] at h
  | cons s rest ih =>
    by_cases hs : s.s_crefs = 0
    · simp [findFree, hs] at h
      subst h
      exact ⟨by simp, by simpa using hs, by omega⟩
    · simp [findFree, hs] at h
      obtain ⟨i1, hi1, rfl⟩ := h
      obtain ⟨hlen, hfree, hmin⟩ := ih i1 hi1
      refine ⟨by simpa using hlen, by simpa using hfree, ?_⟩
      intro j hj
      cases j with
      | zero => simpa using hs
      | succ k =>
        simpa using hmin k (by omega)

/-- A failed scan means every slot in range is live. -/
theorem findFree_none (l : List socket) (h : findFree l = none) :
    ∀ j, j < l.length → (l.getD j zeroSocket).s_crefs ≠ 0 := by
  induction l with
  | nil => simp
  | cons s rest ih =>
    by_cases hs : s.s_crefs = 0
    · simp [findFree, hs] at h
    · simp [findFree, hs] at h
      intro j hj
      cases j with
      | zero => simpa using hs
      | succ k => simpa using ih h k (by simpa using hj)

/-- When slot n is free and every slot below it is live, the scan
returns exactly n. -/
theorem findFree_eq_some_of (l : List socket) (n : Nat) (hn : n < l.length)
    (hfree : (l.getD n zeroSocket).s_crefs = 0)
    (hbelow : ∀ j, j < n → (l.getD j zeroSocket).s_crefs ≠ 0) :
    findFree l = some n := by
  cases h : findFree l with
  | none => exact absurd hfree (findFree_none l h n hn)
  | some i =>
    obtain ⟨hlen, hifree, hmin⟩ := findFree_some l i h
    rcases Nat.lt_trichotomy i n with hlt | heq | hgt
    · exact absurd hifree (hbelow i hlt)
    · rw [heq]
    · exact absurd hfree (hmin n hgt)

/-- C9: a mutex wait of _net_semtake that is interrupted by an
asynchronous signal (sem_wait returning nonzero with errno EINTR) is
silently retried until the semaphore is acquired: for any number n of
EINTR-interrupted waits followed by a successful one, the loop
acquires the mutex (result is some), reports no error and makes no
early return, having retried exactly n times. -/
theorem C9_semtake_retries_on_eintr (n : Nat) :
    net_semtake_loop
      (List.replicate n (SemResult.err EINTR) ++ [SemResult.ok]) = some n := by
  induction n with
  | zero => simp [net_semtake_loop]
  | succ k ih => simp [List.replicate_succ, net_semtake_loop, ih]

/-- C10: sockfd_socket never inspects the slot reference count: for an
in-range descriptor of a task that has a socket list, it returns the
slot reference even when that slot is free (s_crefs = 0). -/
theorem C10_lookup_ignores_refcount (cap : Nat) (off fd : Int)
    (l : socketlist) (h0 : 0 ≤ fd - off) (h1 : fd - off < (cap : Int))
    (hfree : (l.sl_sockets.getD (fd - off).toNat zeroSocket).s_crefs = 0) :
    sockfd_socket cap off fd (some l) = some (fd - off).toNat := by
  simp [sockfd_socket, h0, h1]

/-- C10 witness: descriptor 2 of a freshly created 4-slot list (all
slots free, never allocated) still resolves to slot 2. -/
theorem C10_witness :
    sockfd_socket 4 0 2 (some ⟨1, 1, List.replicate 4 zeroSocket⟩) = some 2 := by
  simpa using
    C10_lookup_ignores_refcount 4 0 2 ⟨1, 1, List.replicate 4 zeroSocket⟩
      (by decide) (by decide) (by decide)

/-- C8: sockfd_socket is a pure translation (it takes no lock and, being
a function of the state only, modifies nothing): it returns none exactly
when the index fd - __SOCKFD_OFFSET falls outside [0, cap) or the task
has no socket list, and otherwise returns the reference to the slot at
that index, which is in range. -/
theorem C8_lookup_translation (cap : Nat) (off fd : Int)
    (st : Option socketlist) :
    (sockfd_socket cap off fd st = none ↔
      fd - off < 0 ∨ (cap : Int) ≤ fd - off ∨ st = none) ∧
    (∀ l, st = some l → 0 ≤ fd - off → fd - off < (cap : Int) →
      sockfd_socket cap off fd st = some (fd - off).toNat ∧
        (fd - off).toNat < cap) := by
  constructor
  · by_cases h : 0 ≤ fd - off ∧ fd - off < (cap : Int)
    · cases st with
      | none => simp [sockfd_socket, h]
      | some l => simp [sockfd_socket, h]; omega
    · cases st with
      | none => simp [sockfd_socket, h]
      | some l => simp [sockfd_socket, h]; omega
  · rintro l rfl h0 h1
    refine ⟨by simp [sockfd_socket, h0, h1], by omega⟩

/-- C8 witness: descriptor 2 against a 4-slot list resolves to slot
index 2, which is below the capacity. -/
theorem C8_witness :
    sockfd_socket 4 0 2 (some ⟨1, 1, List.replicate 4 zeroSocket⟩)
        = some ((2 : Int) - 0).toNat ∧ ((2 : Int) - 0).toNat < 4 :=
  (C8_lookup_translation 4 0 2 (some ⟨1, 1, List.replicate 4 zeroSocket⟩)).2
    ⟨1, 1, List.replicate 4 zeroSocket⟩ rfl (by decide) (by decide)

/-- C5 counterexample: the two failure causes of sockfd_allocate are
NOT distinguishable to the caller. With no socket list the call returns
ERROR, and with a full one-slot table it returns the very same ERROR
value: the C function returns the single value ERROR (-1) in both
cases, with no distinct error codes. -/
theorem C5_counterexample :
    (sockfd_allocate 0 none).1 = ERROR ∧
    (sockfd_allocate 0 (some ⟨1, 1, [⟨1, 0⟩]⟩)).1 = ERROR ∧
    (sockfd_allocate 0 none).1 = (sockfd_allocate 0 (some ⟨1, 1, [⟨1, 0⟩]⟩)).1 := by
  decide

/-- C5 amended: sockfd_allocate fails when the task has no socket list
and when every slot is live after a full scan, but both failures return
the same ERROR value, so the caller cannot distinguish the causes; in
the exhaustion case the mutex is released before failing (the returned
state, sl_sem included, equals the input state). -/
theorem C5_allocate_failure_modes (off : Int) (l : socketlist)
    (hfull : ∀ j, j < l.sl_sockets.length →
      (l.sl_sockets.getD j zeroSocket).s_crefs ≠ 0) :
    sockfd_allocate off none = (ERROR, none) ∧
    sockfd_allocate off (some l) = (ERROR, some l) := by
  have hnone : findFree l.sl_sockets = none := by
    cases h : findFree l.sl_sockets with
    | none => rfl
    | some i =>
      obtain ⟨hlen, hfree, _⟩ := findFree_some _ _ h
      exact absurd hfree (hfull i hlen)
  refine ⟨rfl, ?_⟩
  simp [sockfd_allocate, net_semtake, hnone]
  have := net_semgive_net_semtake l
  simpa [net_semtake] using this

/-- C5 witness: a full one-slot table makes sockfd_allocate return
ERROR with the state restored, and a missing list returns ERROR too. -/
theorem C5_witness :
    sockfd_allocate 0 none = (ERROR, none) ∧
    sockfd_allocate 0 (some ⟨1, 1, [⟨1, 0⟩]⟩) = (ERROR, some ⟨1, 1, [⟨1, 0⟩]⟩) :=
  C5_allocate_failure_modes 0 ⟨1, 1, [⟨1, 0⟩]⟩ (by decide)

/-- C4: net_releaselist decrements the list reference count by one and
destroys the mutex and frees the storage exactly when the decremented
count reaches zero or below; when the list survives, only sl_crefs
changed. For a list created with count 1 and two net_addreflist calls,
the first two releases keep the list valid (counts 2 then 1) and only
the third frees the storage. -/
theorem C4_releaselist_lifecycle (cap : Nat) :
    (∀ l : socketlist, (net_releaselist (some l)).2 = true ↔ l.sl_crefs ≤ 1) ∧
    (∀ l l' : socketlist, net_releaselist (some l) = (some l', false) →
      l'.sl_crefs = l.sl_crefs - 1 ∧ l'.sl_sem = l.sl_sem ∧
        l'.sl_sockets = l.sl_sockets) ∧
    (net_releaselist (net_addreflist (net_addreflist (net_alloclist cap true)))
        = (some ⟨2, 1, List.replicate cap zeroSocket⟩, false) ∧
      net_releaselist (some ⟨2, 1, List.replicate cap zeroSocket⟩)
        = (some ⟨1, 1, List.replicate cap zeroSocket⟩, false) ∧
      net_releaselist (some ⟨1, 1, List.replicate cap zeroSocket⟩)
        = (none, true)) := by
  refine ⟨?_, ?_, ?_⟩
  · intro l
    by_cases hc : l.sl_crefs - 1 ≤ 0
    · simp [net_releaselist, hc]; omega
    · simp [net_releaselist, hc]; omega
  · intro l l' h
    by_cases hc : l.sl_crefs - 1 ≤ 0
    · simp [net_releaselist, hc] at h
    · simp [net_releaselist, hc] at h
      simp [← h]
  · refine ⟨?_, ?_, ?_⟩
    · simp [net_alloclist, net_addreflist, net_releaselist]
    · simp [net_releaselist]
    · simp [net_releaselist]

/-- C4 witness: releasing a list whose count is 3 keeps it valid and
just drops the count to 2, leaving the mutex and slots alone. -/
theorem C4_witness :
    (⟨2, 5, []⟩ : socketlist).sl_crefs = (⟨3, 5, []⟩ : socketlist).sl_crefs - 1 ∧
    (⟨2, 5, []⟩ : socketlist).sl_sem = (⟨3, 5, []⟩ : socketlist).sl_sem ∧
    (⟨2, 5, []⟩ : socketlist).sl_sockets = (⟨3, 5, []⟩ : socketlist).sl_sockets :=
  (C4_releaselist_lifecycle 0).2.1 ⟨3, 5, []⟩ ⟨2, 5, []⟩ (by decide)

/-- C2: when sockfd_allocate succeeds, the descriptor equals the lowest
index of a free slot plus the fixed base offset: the index it used is in
range, its slot had zero reference count, and every lower-numbered slot
was live, so lower-numbered descriptors are always preferred for
reuse. -/
theorem C2_allocate_lowest_free (off : Int) (l : socketlist) (fd : Int)
    (st' : Option socketlist)
    (h : sockfd_allocate off (some l) = (fd, st')) (hsucc : fd ≠ ERROR) :
    ∃ i : Nat, fd = (i : Int) + off ∧ i < l.sl_sockets.length ∧
      (l.sl_sockets.getD i zeroSocket).s_crefs = 0 ∧
      ∀ j, j < i → (l.sl_sockets.getD j zeroSocket).s_crefs ≠ 0 := by
  cases hf : findFree l.sl_sockets with
  | none =>
    simp [sockfd_allocate, net_semtake, hf] at h
    exact absurd h.1.symm hsucc
  | some i =>
    simp [sockfd_allocate, net_semtake, hf] at h
    obtain ⟨hlen, hfree, hmin⟩ := findFree_some _ _ hf
    exact ⟨i, h.1.symm, hlen, hfree, hmin⟩

/-- C2 witness: on a two-slot table whose slot 0 is live, allocation
returns descriptor 1 = index 1 + offset 0, slot 1 was free and slot 0
live. -/
theorem C2_witness :
    ∃ i : Nat, (1 : Int) = (i : Int) + 0 ∧
      i < (⟨1, 1, [⟨1, 0⟩, zeroSocket]⟩ : socketlist).sl_sockets.length ∧
      ((⟨1, 1, [⟨1, 0⟩, zeroSocket]⟩ : socketlist).sl_sockets.getD i
          zeroSocket).s_crefs = 0 ∧
      ∀ j, j < i →
        ((⟨1, 1, [⟨1, 0⟩, zeroSocket]⟩ : socketlist).sl_sockets.getD j
            zeroSocket).s_crefs ≠ 0 :=
  C2_allocate_lowest_free 0 ⟨1, 1, [⟨1, 0⟩, zeroSocket]⟩ 1
    (sockfd_allocate 0 (some ⟨1, 1, [⟨1, 0⟩, zeroSocket]⟩)).2
    (by decide) (by decide)

/-- With no socket list, sockfd_release does nothing. -/
theorem sockfd_release_none (cap : Nat) (off fd : Int) :
    sockfd_release cap off fd none = none := by
  unfold sockfd_release sockfd_socket
  by_cases h : 0 ≤ fd - off ∧ fd - off < (cap : Int) <;> simp [h]

/-- sockfd_allocate leaves the table capacity unchanged. -/
theorem sockfd_allocate_length (off : Int) (l l' : socketlist)
    (h : (sockfd_allocate off (some l)).2 = some l') :
    l'.sl_sockets.length = l.sl_sockets.length := by
  cases hf : findFree l.sl_sockets with
  | none =>
    simp [sockfd_allocate, net_semtake, net_semgive, hf] at h
    simp [← h]
  | some i =>
    simp [sockfd_allocate, net_semtake, net_semgive, hf] at h
    simp [← h, List.length_set]

/-- sockfd_release leaves the table capacity unchanged. -/
theorem sockfd_release_length (cap : Nat) (off fd : Int) (l l' : socketlist)
    (h : sockfd_release cap off fd (some l) = some l') :
    l'.sl_sockets.length = l.sl_sockets.length := by
  unfold sockfd_release at h
  cases hl : sockfd_socket cap off fd (some l) with
  | none =>
    rw [hl] at h
    simp at h
    obtain rfl := h
    rfl
  | some ndx =>
    rw [hl] at h
    simp [net_semtake, net_semgive] at h
    split_ifs at h with hc
    · simp [← h, List.length_set]
    · simp [← h, List.length_set]

/-- sockfd_allocate preserves the zero-slot invariant. -/
theorem sockfd_allocate_slotInv (off : Int) (l l' : socketlist)
    (hinv : slotInv l) (h : (sockfd_allocate off (some l)).2 = some l') :
    slotInv l' := by
  cases hf : findFree l.sl_sockets with
  | none =>
    simp [sockfd_allocate, net_semtake, net_semgive, hf] at h
    intro s hs h0
    apply hinv s _ h0
    simpa [← h] using hs
  | some i =>
    simp [sockfd_allocate, net_semtake, net_semgive, hf] at h
    intro s hs h0
    rw [← h] at hs
    simp at hs
    rcases List.mem_or_eq_of_mem_set hs with hmem | rfl
    · exact hinv s hmem h0
    · simp [zeroSocket] at h0

/-- sockfd_release preserves the zero-slot invariant. -/
theorem sockfd_release_slotInv (cap : Nat) (off fd : Int) (l l' : socketlist)
    (hinv : slotInv l) (h : sockfd_release cap off fd (some l) = some l') :
    slotInv l' := by
  unfold sockfd_release at h
  cases hl : sockfd_socket cap off fd (some l) with
  | none =>
    rw [hl] at h
    simp at h
    obtain rfl := h
    exact hinv
  | some ndx =>
    rw [hl] at h
    simp [net_semtake, net_semgive] at h
    split_ifs at h with hc
    · intro s hs h0
      rw [← h] at hs
      simp at hs
      rcases List.mem_or_eq_of_mem_set hs with hmem | rfl
      · exact hinv s hmem h0
      · simp at h0
        omega
    · intro s hs h0
      rw [← h] at hs
      simp at hs
      rcases List.mem_or_eq_of_mem_set hs with hmem | rfl
      · exact hinv s hmem h0
      · rfl

/-- One allocator operation preserves the zero-slot invariant. -/
theorem runOp_slotInv (cap : Nat) (off : Int) (st : Option socketlist)
    (op : Op) (hst : ∀ l, st = some l → slotInv l) :
    ∀ l', runOp cap off st op = some l' → slotInv l' := by
  intro l' h
  cases st with
  | none =>
    cases op with
    | alloc => simp [runOp, sockfd_allocate] at h
    | rel fd => simp [runOp, sockfd_release_none] at h
  | some l =>
    cases op with
    | alloc => exact sockfd_allocate_slotInv off l l' (hst l rfl) h
    | rel fd => exact sockfd_release_slotInv cap off fd l l' (hst l rfl) h

/-- A whole operation sequence preserves the zero-slot invariant. -/
theorem run_slotInv (cap : Nat) (off : Int) (ops : List Op)
    (st : Option socketlist) (hst : ∀ l, st = some l → slotInv l) :
    ∀ l', run cap off ops st = some l' → slotInv l' := by
  induction ops generalizing st with
  | nil => intro l' h; exact hst l' h
  | cons op ops ih =>
    intro l' h
    exact ih (runOp cap off st op) (runOp_slotInv cap off st op hst) l' h

/-- C7: every operation preserves the invariant that a slot with zero
reference count is fully zeroed: a freshly created list satisfies it,
each single allocate or release step preserves it, and hence every
state reached from a fresh list by any operation sequence satisfies
it. -/
theorem C7_zero_slot_invariant (cap : Nat) (off : Int) (allocOk : Bool)
    (ops : List Op) :
    (∀ l, net_alloclist cap allocOk = some l → slotInv l) ∧
    (∀ st op, (∀ l, st = some l → slotInv l) →
      ∀ l', runOp cap off st op = some l' → slotInv l') ∧
    (∀ l', run cap off ops (net_alloclist cap allocOk) = some l' →
      slotInv l') := by
  have hcreate : ∀ l, net_alloclist cap allocOk = some l → slotInv l := by
    intro l h
    cases allocOk with
    | false => simp [net_alloclist] at h
    | true =>
      simp [net_alloclist] at h
      intro s hs h0
      rw [← h] at hs
      simp at hs
      exact hs.2
  refine ⟨hcreate, ?_, ?_⟩
  · intro st op hst l' h
    exact runOp_slotInv cap off st op hst l' h
  · intro l' h
    exact run_slotInv cap off ops (net_alloclist cap allocOk) hcreate l' h

/-- C7 witness: the state after one allocation on a fresh two-slot list
satisfies the zero-slot invariant. -/
theorem C7_witness : slotInv ⟨1, 1, [⟨1, 0⟩, zeroSocket]⟩ :=
  (C7_zero_slot_invariant 2 0 true [Op.alloc]).2.2
    ⟨1, 1, [⟨1, 0⟩, zeroSocket]⟩ (by decide)

/-- One allocator operation preserves the table capacity. -/
theorem runOp_length (cap : Nat) (off : Int) (st : Option socketlist)
    (op : Op) (hst : ∀ l, st = some l → l.sl_sockets.length = cap) :
    ∀ l', runOp cap off st op = some l' → l'.sl_sockets.length = cap := by
  intro l' h
  cases st with
  | none =>
    cases op with
    | alloc => simp [runOp, sockfd_allocate] at h
    | rel fd => simp [runOp, sockfd_release_none] at h
  | some l =>
    cases op with
    | alloc => rw [sockfd_allocate_length off l l' h]; exact hst l rfl
    | rel fd => rw [sockfd_release_length cap off fd l l' h]; exact hst l rfl

/-- A whole operation sequence preserves the table capacity. -/
theorem run_length (cap : Nat) (off : Int) (ops : List Op)
    (st : Option socketlist)
    (hst : ∀ l, st = some l → l.sl_sockets.length = cap) :
    ∀ l', run cap off ops st = some l' → l'.sl_sockets.length = cap := by
  induction ops generalizing st with
  | nil => intro l' h; exact hst l' h
  | cons op ops ih =>
    intro l' h
    exact ih (runOp cap off st op) (runOp_length cap off st op hst) l' h

/-- C1: over every sequence of allocate and release operations starting
from a fresh list, the table keeps its capacity and the number of live
slots never exceeds it; moreover a successful allocation never returns
the descriptor of a slot that is currently live (it only ever hands out
a descriptor whose slot was free, and marks that slot live), so no two
simultaneously live allocations share a descriptor value. -/
theorem C1_descriptor_table_invariants (cap : Nat) (off : Int)
    (hoff : 0 ≤ off) (ops : List Op) (allocOk : Bool) :
    (∀ l, run cap off ops (net_alloclist cap allocOk) = some l →
      l.sl_sockets.length = cap ∧ liveCount l ≤ cap) ∧
    (∀ (l : socketlist) (ndx : Nat), ndx < l.sl_sockets.length →
      (l.sl_sockets.getD ndx zeroSocket).s_crefs ≠ 0 →
      (sockfd_allocate off (some l)).1 ≠ off + (ndx : Int)) ∧
    (∀ (l : socketlist) (fd : Int) (st' : Option socketlist),
      sockfd_allocate off (some l) = (fd, st') → fd ≠ ERROR →
      ∃ l', st' = some l' ∧
        (l'.sl_sockets.getD (fd - off).toNat zeroSocket).s_crefs ≠ 0) := by
  refine ⟨?_, ?_, ?_⟩
  · intro l h
    have hlen : l.sl_sockets.length = cap := by
      refine run_length cap off ops (net_alloclist cap allocOk) ?_ l h
      intro l0 h0
      cases allocOk with
      | false => simp [net_alloclist] at h0
      | true =>
        simp [net_alloclist] at h0
        simp [← h0]
    refine ⟨hlen, ?_⟩
    calc liveCount l ≤ l.sl_sockets.length := List.countP_le_length _
    _ = cap := hlen
  · intro l ndx hndx hlive
    cases hf : findFree l.sl_sockets with
    | none =>
      simp [sockfd_allocate, net_semtake, hf, ERROR]
      omega
    | some i =>
      simp [sockfd_allocate, net_semtake, hf]
      intro heq
      obtain ⟨-, hfree, -⟩ := findFree_some _ _ hf
      have : i = ndx := by omega
      rw [this] at hfree
      exact hlive hfree
  · intro l fd st' h hsucc
    cases hf : findFree l.sl_sockets with
    | none =>
      simp [sockfd_allocate, net_semtake, hf] at h
      exact absurd h.1.symm hsucc
    | some i =>
      simp [sockfd_allocate, net_semtake, net_semgive, hf] at h
      obtain ⟨hlen, -, -⟩ := findFree_some _ _ hf
      obtain ⟨hfd, hst⟩ := h
      refine ⟨_, hst.symm, ?_⟩
      have hidx : (fd - off).toNat = i := by omega
      rw [hidx]
      rw [getD_set_self _ _ _ _ hlen]
      decide

/-- C1 witness: on a two-slot table whose slot 0 is live, allocation
does not hand out descriptor 0 again. -/
theorem C1_witness :
    (sockfd_allocate 0 (some ⟨1, 1, [⟨1, 0⟩, zeroSocket]⟩)).1
      ≠ (0 : Int) + ((0 : Nat) : Int) :=
  (C1_descriptor_table_invariants 2 0 (by decide) [] true).2.1
    ⟨1, 1, [⟨1, 0⟩, zeroSocket]⟩ 0 (by decide) (by decide)

/-- The slot read by getD at an in-range index is a member of the list. -/
theorem getD_mem (l : List socket) (i : Nat) (d : socket)
    (h : i < l.length) : l.getD i d ∈ l := by
  have heq : l.getD i d = l[i] := by
    simp [List.getD, List.get?_eq_getElem?, List.getElem?_eq_getElem h]
  rw [heq]
  exact List.getElem_mem h

/-- Closed form of sockfd_release on a descriptor that resolves to a
slot: the mutex balance is restored and slot ndx is decremented or
zeroed according to its reference count. -/
theorem sockfd_release_eq (cap : Nat) (off fd : Int) (l : socketlist)
    (ndx : Nat) (hsock : sockfd_socket cap off fd (some l) = some ndx) :
    sockfd_release cap off fd (some l) =
      some (socketlist.mk l.sl_crefs l.sl_sem
        (if (l.sl_sockets.getD ndx zeroSocket).s_crefs > 1 then
          l.sl_sockets.set ndx
            (socket.mk ((l.sl_sockets.getD ndx zeroSocket).s_crefs - 1)
              ((l.sl_sockets.getD ndx zeroSocket).s_conn))
        else l.sl_sockets.set ndx zeroSocket)) := by
  unfold sockfd_release
  rw [hsock]
  simp [net_semtake, net_semgive]
  split_ifs <;> simp

/-- C3: releasing an in-range descriptor whose slot holds more than one
reference decrements the count by exactly one, keeps the rest of the
slot and every other slot intact, and leaves the slot allocated (the
descriptor still resolves through sockfd_socket and the count is
nonzero); releasing one whose slot holds one reference or none zeroes
the whole slot, returning it to the free state, and a subsequent
allocation reuses that exact index as soon as every lower slot is
live. -/
theorem C3_release_decrement_or_zero (cap : Nat) (off fd : Int)
    (l : socketlist) (hlen : l.sl_sockets.length = cap)
    (h0 : 0 ≤ fd - off) (h1 : fd - off < (cap : Int)) :
    ∃ l', sockfd_release cap off fd (some l) = some l' ∧
      l'.sl_sockets.length = cap ∧ l'.sl_sem = l.sl_sem ∧
      l'.sl_crefs = l.sl_crefs ∧
      (∀ j : Nat, j ≠ (fd - off).toNat →
        l'.sl_sockets.getD j zeroSocket = l.sl_sockets.getD j zeroSocket) ∧
      ((l.sl_sockets.getD (fd - off).toNat zeroSocket).s_crefs > 1 →
        (l'.sl_sockets.getD (fd - off).toNat zeroSocket).s_crefs
          = (l.sl_sockets.getD (fd - off).toNat zeroSocket).s_crefs - 1 ∧
        (l'.sl_sockets.getD (fd - off).toNat zeroSocket).s_conn
          = (l.sl_sockets.getD (fd - off).toNat zeroSocket).s_conn ∧
        sockfd_socket cap off fd (some l') = some (fd - off).toNat ∧
        (l'.sl_sockets.getD (fd - off).toNat zeroSocket).s_crefs ≠ 0) ∧
      ((l.sl_sockets.getD (fd - off).toNat zeroSocket).s_crefs ≤ 1 →
        l'.sl_sockets.getD (fd - off).toNat zeroSocket = zeroSocket ∧
        ((∀ j, j < (fd - off).toNat →
            (l'.sl_sockets.getD j zeroSocket).s_crefs ≠ 0) →
          (sockfd_allocate off (some l')).1
            = (((fd - off).toNat : Nat) : Int) + off)) := by
  have hndx : (fd - off).toNat < l.sl_sockets.length := by omega
  have hsock : sockfd_socket cap off fd (some l) = some (fd - off).toNat := by
    simp [sockfd_socket, h0, h1]
  have hrel := sockfd_release_eq cap off fd l (fd - off).toNat hsock
  by_cases hc : (l.sl_sockets.getD (fd - off).toNat zeroSocket).s_crefs > 1
  · rw [if_pos hc] at hrel
    refine ⟨_, hrel, ?_, rfl, rfl, ?_, ?_, ?_⟩
    · simpa [List.length_set] using hlen
    · intro j hj
      exact getD_set_ne _ _ _ _ _ hj
    · intro _
      rw [getD_set_self _ _ _ _ hndx]
      refine ⟨rfl, rfl, by simp [sockfd_socket, h0, h1], ?_⟩
      show (l.sl_sockets.getD (fd - off).toNat zeroSocket).s_crefs - 1 ≠ 0
      omega
    · intro hle
      omega
  · rw [if_neg hc] at hrel
    refine ⟨_, hrel, ?_, rfl, rfl, ?_, ?_, ?_⟩
    · simpa [List.length_set] using hlen
    · intro j hj
      exact getD_set_ne _ _ _ _ _ hj
    · intro hgt
      omega
    · intro _
      rw [getD_set_self _ _ _ _ hndx]
      refine ⟨rfl, ?_⟩
      intro hbelow
      have hfind : findFree
          (l.sl_sockets.set (fd - off).toNat zeroSocket) = some (fd - off).toNat := by
        apply findFree_eq_some_of
        · simpa [List.length_set] using hndx
        · rw [getD_set_self _ _ _ _ hndx]
          rfl
        · exact hbelow
      simp [sockfd_allocate, net_semtake, hfind]

/-- C3 witness: on the table with slots [crefs 2, crefs 1], releasing
descriptor 0 decrements slot 0 to one reference and keeps it resolvable,
as the instantiated conclusion states. -/
theorem C3_witness :
    ∃ l', sockfd_release 2 0 0 (some ⟨1, 1, [⟨2, 7⟩, ⟨1, 3⟩]⟩) = some l' ∧
      l'.sl_sockets.length = 2 ∧
      l'.sl_sem = (⟨1, 1, [⟨2, 7⟩, ⟨1, 3⟩]⟩ : socketlist).sl_sem ∧
      l'.sl_crefs = (⟨1, 1, [⟨2, 7⟩, ⟨1, 3⟩]⟩ : socketlist).sl_crefs ∧
      (∀ j : Nat, j ≠ ((0 : Int) - 0).toNat →
        l'.sl_sockets.getD j zeroSocket
          = (⟨1, 1, [⟨2, 7⟩, ⟨1, 3⟩]⟩ : socketlist).sl_sockets.getD j
              zeroSocket) ∧
      (((⟨1, 1, [⟨2, 7⟩, ⟨1, 3⟩]⟩ : socketlist).sl_sockets.getD
            ((0 : Int) - 0).toNat zeroSocket).s_crefs > 1 →
        (l'.sl_sockets.getD ((0 : Int) - 0).toNat zeroSocket).s_crefs
          = ((⟨1, 1, [⟨2, 7⟩, ⟨1, 3⟩]⟩ : socketlist).sl_sockets.getD
              ((0 : Int) - 0).toNat zeroSocket).s_crefs - 1 ∧
        (l'.sl_sockets.getD ((0 : Int) - 0).toNat zeroSocket).s_conn
          = ((⟨1, 1, [⟨2, 7⟩, ⟨1, 3⟩]⟩ : socketlist).sl_sockets.getD
              ((0 : Int) - 0).toNat zeroSocket).s_conn ∧
        sockfd_socket 2 0 0 (some l') = some ((0 : Int) - 0).toNat ∧
        (l'.sl_sockets.getD ((0 : Int) - 0).toNat zeroSocket).s_crefs ≠ 0) ∧
      (((⟨1, 1, [⟨2, 7⟩, ⟨1, 3⟩]⟩ : socketlist).sl_sockets.getD
            ((0 : Int) - 0).toNat zeroSocket).s_crefs ≤ 1 →
        l'.sl_sockets.getD ((0 : Int) - 0).toNat zeroSocket = zeroSocket ∧
        ((∀ j, j < ((0 : Int) - 0).toNat →
            (l'.sl_sockets.getD j zeroSocket).s_crefs ≠ 0) →
          (sockfd_allocate 0 (some l')).1
            = ((((0 : Int) - 0).toNat : Nat) : Int) + 0)) :=
  C3_release_decrement_or_zero 2 0 0 ⟨1, 1, [⟨2, 7⟩, ⟨1, 3⟩]⟩
    (by decide) (by decide) (by decide)

/-- C6: sockfd_release is a silent no-op on invalid input: an
out-of-range descriptor, a missing socket list, or an in-range
descriptor whose slot is already free (zero reference count, under the
zero-slot invariant) each leave the entire state unchanged, and the C
function returns void, so no error is reported. -/
theorem C6_release_invalid_noop (cap : Nat) (off fd : Int)
    (st : Option socketlist) :
    (¬ (0 ≤ fd - off ∧ fd - off < (cap : Int)) →
      sockfd_release cap off fd st = st) ∧
    (st = none → sockfd_release cap off fd st = st) ∧
    (∀ l, st = some l → l.sl_sockets.length = cap → slotInv l →
      (l.sl_sockets.getD (fd - off).toNat zeroSocket).s_crefs = 0 →
      sockfd_release cap off fd st = st) := by
  refine ⟨?_, ?_, ?_⟩
  · intro h
    have hs : sockfd_socket cap off fd st = none := by
      simp only [sockfd_socket]
      rw [if_neg h]
    unfold sockfd_release
    rw [hs]
  · rintro rfl
    exact sockfd_release_none cap off fd
  · rintro l rfl hlen hinv hfree
    by_cases hin : 0 ≤ fd - off ∧ fd - off < (cap : Int)
    · have hndx : (fd - off).toNat < l.sl_sockets.length := by omega
      have hsock : sockfd_socket cap off fd (some l)
          = some (fd - off).toNat := by
        simp [sockfd_socket, hin.1, hin.2]
      rw [sockfd_release_eq cap off fd l (fd - off).toNat hsock]
      rw [if_neg (by omega)]
      have hzero : l.sl_sockets.getD (fd - off).toNat zeroSocket
          = zeroSocket :=
        hinv _ (getD_mem _ _ _ hndx) hfree
      rw [set_getD_self _ _ _ zeroSocket hndx hzero]
    · have hs : sockfd_socket cap off fd (some l) = none := by
        simp only [sockfd_socket]
        rw [if_neg hin]
      unfold sockfd_release
      rw [hs]

/-- C6 witness: on the two-slot table [crefs 1, free], releasing the
out-of-range descriptor 5 and releasing the already-free descriptor 1
both leave the state exactly as it was. -/
theorem C6_witness :
    sockfd_release 2 0 5 (some ⟨1, 1, [⟨1, 0⟩, zeroSocket]⟩)
        = some ⟨1, 1, [⟨1, 0⟩, zeroSocket]⟩ ∧
    sockfd_release 2 0 1 (some ⟨1, 1, [⟨1, 0⟩, zeroSocket]⟩)
        = some ⟨1, 1, [⟨1, 0⟩, zeroSocket]⟩ :=
  ⟨(C6_release_invalid_noop 2 0 5 (some ⟨1, 1, [⟨1, 0⟩, zeroSocket]⟩)).1
      (by decide),
   (C6_release_invalid_noop 2 0 1 (some ⟨1, 1, [⟨1, 0⟩, zeroSocket]⟩)).2.2
      ⟨1, 1, [⟨1, 0⟩, zeroSocket]⟩ rfl (by decide) (by decide) (by decide)⟩

-- Concrete executions of the embedding, mirroring the scenario of the
-- testable-properties section: consecutive descriptors from a fresh
-- list, exhaustion, reuse after release, and a retried mutex wait.
example : (sockfd_allocate 10 (net_alloclist 2 true)).1 = 10 := by decide
example :
    (sockfd_allocate 10 ((sockfd_allocate 10 (net_alloclist 2 true)).2)).1 = 11 := by
  decide
example :
    (sockfd_allocate 10 ((sockfd_allocate 10
      ((sockfd_allocate 10 (net_alloclist 2 true)).2)).2)).1 = ERROR := by
  decide
example :
    sockfd_release 2 10 10 ((sockfd_allocate 10 (net_alloclist 2 true)).2)
      = net_alloclist 2 true := by decide
example : net_semtake_loop [SemResult.err EINTR, SemResult.ok] = some 1 := by decide
